import Mathlib

set_option linter.unusedVariables false

/-!
Shallow embedding of the learning-mode core of this repository
(src/core/learning): quiz generation/parsing/repair (QuizGenerator),
quiz persistence and answer checking (QuizManager), curriculum task
mutation (CurriculumManager), learning statistics and streaks
(LearningStatisticsManager), and the bounded directory walk
(ProjectAnalyzer).  Pure functions are translated directly; stateful
code is modelled by explicit state passing (the stored JSON document is
a value threaded through the operation); clock and uuid values are
explicit parameters or placeholders where no claim depends on them.
-/

/-- Status of a learning task (types.ts, TaskStatusType). -/
inductive TaskStatusType
  | not_started
  | in_progress
  | completed
  | skipped
deriving DecidableEq, Repr

/-- Difficulty of a quiz question (types.ts, QuizDifficulty). -/
inductive QuizDifficulty
  | beginner
  | intermediate
  | advanced
deriving DecidableEq, Repr

/-- One answer choice of a quiz question (types.ts, QuizChoiceData). -/
structure QuizChoiceData where
  id : String
  text : String
  isCorrect : Bool
deriving DecidableEq, Repr

/-- One quiz question (types.ts, QuizQuestionData). -/
structure QuizQuestionData where
  id : String
  questionNumber : Nat
  technology : String
  difficulty : QuizDifficulty
  questionText : String
  choices : List QuizChoiceData
  explanation : String
deriving DecidableEq, Repr

/-- A generated quiz (types.ts, QuizData). -/
structure QuizData where
  id : String
  questions : List QuizQuestionData
  targetTechnologies : List String
  createdAt : String
deriving DecidableEq, Repr

/-- One choice as it appears in the model's JSON output, before
normalization: every field may be absent (QuizGenerator.parseResponse
reads them with fallbacks). -/
structure RawChoice where
  id : Option String
  text : Option String
  isCorrect : Option Bool
deriving DecidableEq, Repr

/-- One question as it appears in the model's JSON output. -/
structure RawQuestion where
  technology : Option String
  difficulty : Option String
  questionText : Option String
  choices : Option (List RawChoice)
  explanation : Option String
deriving DecidableEq, Repr

/-- JavaScript string fallback a || b: a missing or empty string falls
back to b. -/
def jsOrStr (a : Option String) (b : String) : String :=
  match a with
  | none => b
  | some s => if s = "" then b else s

/-- Normalization of one raw choice inside QuizGenerator.parseResponse:
id and text default to the empty string, isCorrect is true only when the
JSON value is exactly true. -/
def rawToChoice (c : RawChoice) : QuizChoiceData :=
  { id := c.id.getD ""
    text := c.text.getD ""
    isCorrect := c.isCorrect == some true }

/-- Number of choices flagged correct (choices.filter(c => c.isCorrect).length). -/
def countCorrect (choices : List QuizChoiceData) : Nat :=
  (choices.filter (fun c => c.isCorrect)).length

/-- Zero-correct repair of QuizGenerator.parseResponse: the first choice
is forced correct (choices[0].isCorrect = true). -/
def forceFirstCorrect : List QuizChoiceData → List QuizChoiceData
  | [] => []
  | c :: rest => { c with isCorrect := true } :: rest

/-- Multi-correct repair of QuizGenerator.parseResponse: scan the
choices, keep the first one flagged correct and clear the flag on every
later correct one (the foundFirst loop). -/
def keepFirstCorrect : List QuizChoiceData → List QuizChoiceData
  | [] => []
  | c :: rest =>
    if c.isCorrect then
      c :: rest.map (fun x => if x.isCorrect then { x with isCorrect := false } else x)
    else
      c :: keepFirstCorrect rest

/-- Choice-correctness repair of QuizGenerator.parseResponse: if the
correct count is not 1, force the first choice correct when none are
correct and the list is non-empty, or keep only the first correct one
when more than one is correct. -/
def repairChoices (choices : List QuizChoiceData) : List QuizChoiceData :=
  let correctCount := countCorrect choices
  if correctCount = 1 then choices
  else if correctCount = 0 then
    if choices.length > 0 then forceFirstCorrect choices else choices
  else keepFirstCorrect choices

/-- QuizGenerator.validateDifficulty: normalize the difficulty string,
defaulting to intermediate. -/
def validateDifficulty (difficulty : Option String) : QuizDifficulty :=
  match difficulty with
  | some "beginner" => QuizDifficulty.beginner
  | some "intermediate" => QuizDifficulty.intermediate
  | some "advanced" => QuizDifficulty.advanced
  | _ => QuizDifficulty.intermediate

/-- Mapping of one raw question in QuizGenerator.parseResponse.  uuidv4
is external randomness whose value no claim depends on; it is modelled
by a placeholder string. -/
def parseQuestion (targetTechnologies : List String) (idx : Nat) (q : RawQuestion) :
    QuizQuestionData :=
  { id := "uuid"
    questionNumber := idx + 1
    technology := jsOrStr q.technology (jsOrStr targetTechnologies.head? "General")
    difficulty := validateDifficulty q.difficulty
    questionText := q.questionText.getD ""
    choices := repairChoices ((q.choices.getD []).map rawToChoice)
    explanation := q.explanation.getD "" }

/-- QuizGenerator.createPlaceholderQuestion: synthetic question appended
when the model produced fewer than 5 questions.  In JavaScript, indexing
an empty technologies array with questionNumber % 0 (NaN) yields
undefined, hence the fallback to General. -/
def createPlaceholderQuestion (questionNumber : Nat) (technologies : List String) :
    QuizQuestionData :=
  let tech :=
    if technologies.length = 0 then "General"
    else jsOrStr (technologies.get? (questionNumber % technologies.length)) "General"
  { id := "uuid"
    questionNumber := questionNumber
    technology := tech
    difficulty :=
      if questionNumber ≤ 2 then QuizDifficulty.beginner
      else if questionNumber ≤ 4 then QuizDifficulty.intermediate
      else QuizDifficulty.advanced
    questionText := tech ++ "に関する質問" ++ toString questionNumber
    choices :=
      [ { id := "A", text := "選択肢A", isCorrect := true }
      , { id := "B", text := "選択肢B", isCorrect := false }
      , { id := "C", text := "選択肢C", isCorrect := false }
      , { id := "D", text := "選択肢D", isCorrect := false } ]
    explanation := "この問題は自動生成されたプレースホルダーです。" }

/-- Fuelled form of the while loop of QuizGenerator.parseResponse that
appends placeholder questions until there are at least 5.  Each
iteration appends exactly one question and the loop continues only while
the length is below 5, so 5 units of fuel always suffice; the theorem
padQuestions_loop below proves the fuel-free loop equation. -/
def padQuestionsAux : Nat → List QuizQuestionData → List String → List QuizQuestionData
  | 0, questions, _ => questions
  | Nat.succ fuel, questions, targetTechnologies =>
    if questions.length < 5 then
      padQuestionsAux fuel
        (questions ++ [createPlaceholderQuestion (questions.length + 1) targetTechnologies])
        targetTechnologies
    else questions

/-- While loop of QuizGenerator.parseResponse that appends placeholder
questions until there are at least 5. -/
def padQuestions (questions : List QuizQuestionData) (targetTechnologies : List String) :
    List QuizQuestionData :=
  padQuestionsAux 5 questions targetTechnologies

/-- QuizGenerator.parseResponse after successful JSON extraction.  The
source first extracts the fenced json block by regex and runs JSON.parse,
throwing when either fails; a response accepted by the parser is exactly
one that yields a list of raw questions, which is this function's input.
The quiz id (uuidv4) and createdAt (clock) are placeholders, as no claim
depends on their values. -/
def parseResponse (rawQuestions : List RawQuestion) (targetTechnologies : List String) :
    QuizData :=
  let questions := rawQuestions.mapIdx (fun idx q => parseQuestion targetTechnologies idx q)
  { id := "uuid"
    questions := (padQuestions questions targetTechnologies).take 5
    targetTechnologies := targetTechnologies
    createdAt := "now" }

/-- Client-facing proto form of a quiz choice
(shared/proto/cline/learning, QuizChoice). -/
structure QuizChoice where
  id : String
  text : String
  isCorrect : Bool
deriving DecidableEq, Repr

/-- Client-facing proto form of a quiz question. -/
structure QuizQuestion where
  id : String
  questionNumber : Nat
  technology : String
  difficulty : QuizDifficulty
  questionText : String
  choices : List QuizChoice
  explanation : String
deriving DecidableEq, Repr

/-- Client-facing proto form of a quiz. -/
structure Quiz where
  id : String
  questions : List QuizQuestion
  targetTechnologies : List String
  createdAt : String
deriving DecidableEq, Repr

/-- QuizManager.choiceToProto: the isCorrect flag is masked to false
when hideCorrect is set.  The source declares hideCorrect with default
value true; callers that omit the argument get true, made explicit at
each call site here. -/
def QuizManager.choiceToProto (c : QuizChoiceData) (hideCorrect : Bool) : QuizChoice :=
  { id := c.id
    text := c.text
    isCorrect := if hideCorrect then false else c.isCorrect }

/-- QuizManager.questionToProto: the call to choiceToProto omits
hideCorrect, so the default true applies. -/
def QuizManager.questionToProto (q : QuizQuestionData) : QuizQuestion :=
  { id := q.id
    questionNumber := q.questionNumber
    technology := q.technology
    difficulty := q.difficulty
    questionText := q.questionText
    choices := q.choices.map (fun c => QuizManager.choiceToProto c true)
    explanation := q.explanation }

/-- QuizManager.toProto: projection of a stored quiz to its proto form. -/
def QuizManager.toProto (data : QuizData) : Quiz :=
  { id := data.id
    questions := data.questions.map (fun q => QuizManager.questionToProto q)
    targetTechnologies := data.targetTechnologies
    createdAt := data.createdAt }

/-- Result record of QuizManager.checkAnswer. -/
structure CheckAnswerResult where
  isCorrect : Bool
  correctChoiceId : String
  explanation : String
deriving DecidableEq, Repr

/-- QuizManager.checkAnswer.  The stored quiz is the result of loadQuiz
(none when the quiz file is missing or unreadable); a thrown Error is
modelled as Except.error carrying the message. -/
def QuizManager.checkAnswer (stored : Option QuizData)
    (quizId questionId selectedChoiceId : String) : Except String CheckAnswerResult :=
  match stored with
  | none => Except.error "Quiz not found"
  | some quiz =>
    if quiz.id ≠ quizId then Except.error "Quiz not found"
    else
      match quiz.questions.find? (fun q => q.id == questionId) with
      | none => Except.error "Question not found"
      | some question =>
        let correctChoice := question.choices.find? (fun c => c.isCorrect)
        Except.ok
          { isCorrect := correctChoice.map (fun c => c.id) == some selectedChoiceId
            correctChoiceId := (correctChoice.map (fun c => c.id)).getD ""
            explanation := question.explanation }

/-- A learning task (types.ts, TaskData). -/
structure TaskData where
  id : String
  title : String
  description : String
  status : TaskStatusType
  targetFiles : List String
  estimatedTime : String
  prerequisites : List String
deriving DecidableEq, Repr

/-- A curriculum chapter (types.ts, ChapterData). -/
structure ChapterData where
  id : String
  title : String
  description : String
  tasks : List TaskData
  order : Nat
deriving DecidableEq, Repr

/-- A curriculum document (types.ts, CurriculumData).  ISO timestamp
strings are embedded as integer milliseconds; their lexicographic string
order and date arithmetic agree with the integer order. -/
structure CurriculumData where
  id : String
  title : String
  description : String
  chapters : List ChapterData
  createdAt : Int
  updatedAt : Int
  projectSummary : String
deriving DecidableEq, Repr

/-- Per-task timing record (types.ts, TaskStatistic).  Timestamps in
milliseconds as in CurriculumData. -/
structure TaskStatistic where
  taskId : String
  startedAt : Option Int
  completedAt : Option Int
  timeSpentMinutes : Int
deriving DecidableEq, Repr

/-- Statistics document (types.ts, LearningStatisticsData).  Learning
dates are ISO YYYY-MM-DD strings in the source, embedded as integer day
numbers: lexicographic order on ISO dates coincides with numeric order
on day numbers.  completionPercentage is a float in the source, modelled
over the rationals (no claim depends on its rounding). -/
structure LearningStatisticsData where
  curriculumId : String
  totalTasks : Nat
  completedTasks : Nat
  inProgressTasks : Nat
  skippedTasks : Nat
  notStartedTasks : Nat
  estimatedTotalMinutes : Nat
  actualTimeSpentMinutes : Int
  taskStats : List TaskStatistic
  lastActivityTime : Int
  completionPercentage : ℚ
  streakDays : Nat
  learningDates : List Int
deriving DecidableEq, Repr

/-- Insertion step of an insertion sort on day numbers. -/
def insertDate (d : Int) : List Int → List Int
  | [] => [d]
  | x :: xs => if d ≤ x then d :: x :: xs else x :: insertDate d xs

/-- Ascending sort of a date list, modelling JavaScript
dates.sort(): default string sort is lexicographic, which on ISO
YYYY-MM-DD dates is chronological, i.e. numeric order on day numbers. -/
def sortDates : List Int → List Int
  | [] => []
  | d :: ds => insertDate d (sortDates ds)

/-- Loop of LearningStatisticsManager.calculateStreak: streak starts at
1 and increments for each adjacent pair of the descending list whose day
difference is exactly 1, stopping at the first other difference.
Subtracting two UTC-midnight dates and dividing by 86400000 ms gives an
exact integer, so the source's Math.round is the identity here. -/
def streakLoop : List Int → Nat
  | [] => 1
  | [_] => 1
  | a :: b :: rest => if a - b = 1 then 1 + streakLoop (b :: rest) else 1

/-- LearningStatisticsManager.calculateStreak.  The two clock reads
(today's and yesterday's date strings) are derived from the explicit
today parameter. -/
def calculateStreak (today : Int) (dates : List Int) : Nat :=
  if dates.length = 0 then 0
  else
    let sortedDates := (sortDates dates).reverse
    let yesterday := today - 1
    if sortedDates.head? ≠ some today ∧ sortedDates.head? ≠ some yesterday then 0
    else streakLoop sortedDates

/-- Numeric value of a digit run. -/
def digitsToNat (ds : List Char) : Nat :=
  ds.foldl (fun n c => 10 * n + (c.toNat - 48)) 0

/-- Scan for the first digit of a character list and parse the maximal
digit run starting there. -/
def firstNatAux : List Char → Option Nat
  | [] => none
  | c :: cs =>
    if c.isDigit then some (digitsToNat (c :: cs.takeWhile Char.isDigit))
    else firstNatAux cs

/-- First integer embedded in a string: the regex match (\d+) of
calculateFromCurriculum's estimated-time parsing, parsed with parseInt. -/
def firstNat? (s : String) : Option Nat :=
  firstNatAux s.toList

/-- LearningStatisticsManager.calculateFromCurriculum. -/
def calculateFromCurriculum (curriculum : CurriculumData) : LearningStatisticsData :=
  let allTasks := curriculum.chapters.flatMap (fun ch => ch.tasks)
  let completedTasks := (allTasks.filter (fun t => t.status == TaskStatusType.completed)).length
  let inProgressTasks := (allTasks.filter (fun t => t.status == TaskStatusType.in_progress)).length
  let skippedTasks := (allTasks.filter (fun t => t.status == TaskStatusType.skipped)).length
  let notStartedTasks := (allTasks.filter (fun t => t.status == TaskStatusType.not_started)).length
  let totalTasks := allTasks.length
  let estimatedTotalMinutes :=
    allTasks.foldl (fun sum task => sum + ((firstNat? task.estimatedTime).getD 30)) 0
  let completionPercentage : ℚ :=
    if totalTasks > 0 then ((completedTasks : ℚ) / (totalTasks : ℚ)) * 100 else 0
  { curriculumId := curriculum.id
    totalTasks := totalTasks
    completedTasks := completedTasks
    inProgressTasks := inProgressTasks
    skippedTasks := skippedTasks
    notStartedTasks := notStartedTasks
    estimatedTotalMinutes := estimatedTotalMinutes
    actualTimeSpentMinutes := 0
    taskStats := []
    lastActivityTime := curriculum.updatedAt
    completionPercentage := completionPercentage
    streakDays := 0
    learningDates := [] }

/-- Math.round(d / 60000) on an integer millisecond difference d,
written with integer floor division (round half toward positive
infinity, as Math.round does). -/
def roundMinutes (d : Int) : Int :=
  Int.fdiv (2 * d + 60000) 120000

/-- Update of the first element satisfying p, modelling the JavaScript
find followed by in-place mutation of the found element. -/
def updateFirst {α : Type} (p : α → Bool) (f : α → α) : List α → List α
  | [] => []
  | x :: xs => if p x then f x :: xs else x :: updateFirst p f xs

/-- Merge step of updateTaskStatistics: counts are recomputed fresh from
the curriculum; accumulated timing fields are carried over from the
previously stored statistics when a stored document exists. -/
def mergeStatistics (existing : Option LearningStatisticsData) (curriculum : CurriculumData) :
    LearningStatisticsData :=
  let freshStats := calculateFromCurriculum curriculum
  match existing with
  | some statistics =>
    { freshStats with
        taskStats := statistics.taskStats
        actualTimeSpentMinutes := statistics.actualTimeSpentMinutes
        learningDates := statistics.learningDates }
  | none => freshStats

/-- Find-or-create step of updateTaskStatistics: a task statistic with
zero accumulated time is appended when none exists for the task. -/
def ensureTaskStat (taskId : String) (stats : LearningStatisticsData) :
    LearningStatisticsData :=
  if stats.taskStats.any (fun ts => ts.taskId == taskId) then stats
  else
    { stats with
        taskStats := stats.taskStats ++
          [{ taskId := taskId, startedAt := none, completedAt := none, timeSpentMinutes := 0 }] }

/-- Timing-transition step of updateTaskStatistics: entering in_progress
from any other status stamps startedAt; the in_progress-to-completed
transition stamps completedAt and, when startedAt was set, adds the
rounded elapsed minutes to the task's and the document's totals.  The
none branch of find? is unreachable because ensureTaskStat has run. -/
def applyTiming (now : Int) (taskId : String) (oldStatus newStatus : TaskStatusType)
    (stats : LearningStatisticsData) : LearningStatisticsData :=
  if newStatus == TaskStatusType.in_progress && oldStatus != TaskStatusType.in_progress then
    { stats with
        taskStats := updateFirst (fun ts => ts.taskId == taskId)
          (fun ts => { ts with startedAt := some now }) stats.taskStats }
  else if newStatus == TaskStatusType.completed && oldStatus == TaskStatusType.in_progress then
    match stats.taskStats.find? (fun ts => ts.taskId == taskId) with
    | none => stats
    | some taskStat =>
      match taskStat.startedAt with
      | some startTime =>
        let minutesSpent := roundMinutes (now - startTime)
        { stats with
            taskStats := updateFirst (fun ts => ts.taskId == taskId)
              (fun ts =>
                { ts with
                    completedAt := some now
                    timeSpentMinutes := ts.timeSpentMinutes + minutesSpent })
              stats.taskStats
            actualTimeSpentMinutes := stats.actualTimeSpentMinutes + minutesSpent }
      | none =>
        { stats with
            taskStats := updateFirst (fun ts => ts.taskId == taskId)
              (fun ts => { ts with completedAt := some now }) stats.taskStats }
  else stats

/-- Learning-date step of updateTaskStatistics: today is recorded once
(push then in-place ascending sort), streak recomputed, last activity
refreshed. -/
def recordDate (now : Int) (today : Int) (stats : LearningStatisticsData) :
    LearningStatisticsData :=
  let dates :=
    if stats.learningDates.contains today then stats.learningDates
    else sortDates (stats.learningDates ++ [today])
  { stats with
      learningDates := dates
      streakDays := calculateStreak today dates
      lastActivityTime := now }

/-- LearningStatisticsManager.updateTaskStatistics as a pure function:
the previously stored statistics document (none when the stats file is
missing), the clock in milliseconds, and the curriculum are explicit
inputs; the result is the document saved back and returned.  Today's
date is the clock truncated to the UTC day, as the source's ISO-string
split does.  The source's curriculumId parameter is unused by its body
and omitted. -/
def updateTaskStatistics (existing : Option LearningStatisticsData) (now : Int)
    (taskId : String) (oldStatus newStatus : TaskStatusType) (curriculum : CurriculumData) :
    LearningStatisticsData :=
  let today := Int.fdiv now 86400000
  recordDate now today
    (applyTiming now taskId oldStatus newStatus
      (ensureTaskStat taskId (mergeStatistics existing curriculum)))

/-- Chapter loop of CurriculumManager.updateTaskStatus: the first
chapter containing the task has that task's status set; none when no
chapter contains it (the loop falls through). -/
def updateTaskInChapters (taskId : String) (status : TaskStatusType) :
    List ChapterData → Option (List ChapterData)
  | [] => none
  | ch :: rest =>
    if ch.tasks.any (fun t => t.id == taskId) then
      some ({ ch with
                tasks := updateFirst (fun t => t.id == taskId)
                  (fun t => { t with status := status }) ch.tasks } :: rest)
    else
      (updateTaskInChapters taskId status rest).map (fun chs => ch :: chs)

/-- CurriculumManager.updateTaskStatus as a pure function over the
stored curriculum document: the result pair is (returned value, stored
document after the call); saveCurriculum runs only on the found branch,
so on the not-found branches the stored document is untouched. -/
def CurriculumManager.updateTaskStatus (stored : Option CurriculumData) (now : Int)
    (taskId : String) (status : TaskStatusType) :
    Option CurriculumData × Option CurriculumData :=
  match stored with
  | none => (none, stored)
  | some curriculum =>
    match updateTaskInChapters taskId status curriculum.chapters with
    | none => (none, stored)
    | some chapters =>
      let updated := { curriculum with chapters := chapters, updatedAt := now }
      (some updated, some updated)

/-- Filesystem entry as the walk sees it: the Dirent view of readdir,
either a file or a directory with its entries. -/
inductive FsEntry
  | file (name : String)
  | dir (name : String) (children : List FsEntry)
deriving Repr

/-- Name of a filesystem entry (entry.name). -/
def FsEntry.name : FsEntry → String
  | FsEntry.file n => n
  | FsEntry.dir n _ => n

/-- Dirent.isDirectory(). -/
def FsEntry.isDirectory : FsEntry → Bool
  | FsEntry.file _ => false
  | FsEntry.dir _ _ => true

mutual

/-- Number of entries in one filesystem entry, the termination measure
of the walk. -/
def FsEntry.size : FsEntry → Nat
  | FsEntry.file _ => 1
  | FsEntry.dir _ children => 1 + FsEntry.sizeList children

/-- Number of entries in a list of filesystem entries. -/
def FsEntry.sizeList : List FsEntry → Nat
  | [] => 0
  | e :: es => FsEntry.size e + FsEntry.sizeList es

end

/-- Result node of the structure walk (types.ts, DirectoryNode).  The
path field of the source is the path join of the names from the root
down; it is derived data that no claim mentions and is not tracked. -/
inductive DirectoryNode
  | file (name : String)
  | dir (name : String) (children : List DirectoryNode)
deriving Repr

/-- Deny list of the walk (ProjectAnalyzer EXCLUDED_DIRS). -/
def EXCLUDED_DIRS : List String :=
  [ "node_modules", ".git", "dist", "build", ".next", "__pycache__"
  , ".venv", "venv", ".idea", ".vscode", "coverage", ".nyc_output", ".onboarding" ]

/-- Walk recursion-depth cap (ProjectAnalyzer MAX_DEPTH). -/
def MAX_DEPTH : Nat := 4

/-- Files listed per directory cap (ProjectAnalyzer MAX_FILES_PER_DIR). -/
def MAX_FILES_PER_DIR : Nat := 50

/-- Files visited over the whole walk cap (ProjectAnalyzer MAX_TOTAL_FILES). -/
def MAX_TOTAL_FILES : Nat := 500

/-- Comparator of analyzeStructure's entry sort: directories before
files, then by name; localeCompare is modelled as code-point order. -/
def entryLE (a b : FsEntry) : Bool :=
  if a.isDirectory && !b.isDirectory then true
  else if !a.isDirectory && b.isDirectory then false
  else a.name ≤ b.name

/-- Insertion step of the entry sort. -/
def insertEntry (e : FsEntry) : List FsEntry → List FsEntry
  | [] => [e]
  | x :: xs => if entryLE e x then e :: x :: xs else x :: insertEntry e xs

/-- Sort of a directory's entries (entries.sort with the
directories-first comparator). -/
def sortEntries : List FsEntry → List FsEntry
  | [] => []
  | e :: es => insertEntry e (sortEntries es)

/-- Continue conditions at the top of the walk loop: entries on the deny
list and dot entries other than .env* are skipped. -/
def skipEntry (e : FsEntry) : Bool :=
  EXCLUDED_DIRS.contains e.name ||
    (e.name.startsWith "." && !(e.name.startsWith ".env"))

mutual

/-- ProjectAnalyzer.analyzeStructure on one directory: the mutable
this.totalFiles counter is threaded explicitly, and the function returns
the built node together with the updated counter.  The readdir of the
source is the children list of the modelled entry; a readdir failure
(permission error) is a directory modelled with no children, which the
source's catch treats identically. -/
def analyzeStructure (name : String) (children : List FsEntry) (depth totalFiles : Nat) :
    DirectoryNode × Nat :=
  if depth ≥ MAX_DEPTH ∨ totalFiles ≥ MAX_TOTAL_FILES then
    (DirectoryNode.dir name [], totalFiles)
  else
    let r := walkEntries (sortEntries children) depth 0 totalFiles
    (DirectoryNode.dir name r.1, r.2)
termination_by (FsEntry.sizeList children, 1)
decreasing_by
  have hins : ∀ (a : FsEntry) (l : List FsEntry),
      FsEntry.sizeList (insertEntry a l) = FsEntry.size a + FsEntry.sizeList l := by
    intro a l
    induction l with
    | nil => simp [insertEntry, FsEntry.sizeList]
    | cons x xs ih =>
      simp only [insertEntry]
      split
      · simp [FsEntry.sizeList]
      · simp [FsEntry.sizeList, ih]
        omega
  have hsort : FsEntry.sizeList (sortEntries children) = FsEntry.sizeList children := by
    induction children with
    | nil => rfl
    | cons x xs ih => simp [sortEntries, hins, ih, FsEntry.sizeList]
  rw [hsort]
  exact Prod.Lex.right _ (by omega)

/-- Entry loop of analyzeStructure over the sorted entries, carrying the
per-directory fileCount and the global totalFiles counter; hitting
either cap breaks the loop, dropping the remaining entries. -/
def walkEntries (entries : List FsEntry) (depth fileCount totalFiles : Nat) :
    List DirectoryNode × Nat :=
  match entries with
  | [] => ([], totalFiles)
  | e :: rest =>
    if skipEntry e then walkEntries rest depth fileCount totalFiles
    else if fileCount ≥ MAX_FILES_PER_DIR ∨ totalFiles ≥ MAX_TOTAL_FILES then
      ([], totalFiles)
    else
      match e with
      | FsEntry.dir n ch =>
        let c := analyzeStructure n ch (depth + 1) totalFiles
        let r := walkEntries rest depth fileCount c.2
        (c.1 :: r.1, r.2)
      | FsEntry.file n =>
        let r := walkEntries rest depth (fileCount + 1) (totalFiles + 1)
        (DirectoryNode.file n :: r.1, r.2)
termination_by (FsEntry.sizeList entries, 0)
decreasing_by
  all_goals
    have hpos : ∀ (a : FsEntry), 1 ≤ FsEntry.size a := by
      intro a
      cases a <;> simp [FsEntry.size]
    apply Prod.Lex.left
    simp only [FsEntry.sizeList, FsEntry.size]
  all_goals try have h1 := hpos e
  all_goals omega

end

mutual

/-- Number of file nodes in a walk result tree. -/
def DirectoryNode.fileTotal : DirectoryNode → Nat
  | DirectoryNode.file _ => 1
  | DirectoryNode.dir _ children => DirectoryNode.fileTotalList children

/-- Number of file nodes in a list of walk result trees. -/
def DirectoryNode.fileTotalList : List DirectoryNode → Nat
  | [] => 0
  | n :: ns => DirectoryNode.fileTotal n + DirectoryNode.fileTotalList ns

end

mutual

/-- Height of a walk result tree: a childless node has height 1. -/
def DirectoryNode.height : DirectoryNode → Nat
  | DirectoryNode.file _ => 1
  | DirectoryNode.dir _ children => 1 + DirectoryNode.heightList children

/-- Greatest height among a list of walk result trees. -/
def DirectoryNode.heightList : List DirectoryNode → Nat
  | [] => 0
  | n :: ns => max (DirectoryNode.height n) (DirectoryNode.heightList ns)

end

/-- Number of file-type nodes directly in a children list. -/
def directFileChildren (nodes : List DirectoryNode) : Nat :=
  (nodes.filter (fun n =>
    match n with
    | DirectoryNode.file _ => true
    | DirectoryNode.dir _ _ => false)).length

mutual

/-- Check that every directory node of a tree, the root included,
satisfies a predicate on its children list. -/
def DirectoryNode.allDirs (p : List DirectoryNode → Bool) : DirectoryNode → Bool
  | DirectoryNode.file _ => true
  | DirectoryNode.dir _ children => p children && DirectoryNode.allDirsList p children

/-- Check allDirs over a list of trees. -/
def DirectoryNode.allDirsList (p : List DirectoryNode → Bool) : List DirectoryNode → Bool
  | [] => true
  | n :: ns => DirectoryNode.allDirs p n && DirectoryNode.allDirsList p ns

end

/-- Phase of a quiz generation progress event (QuizGenerationProgress). -/
inductive GenPhase
  | detecting
  | generating
  | completed
  | error
deriving DecidableEq, Repr

/-- Progress event yielded by QuizGenerator.generate
(QuizGenerationProgress). -/
structure QuizGenerationProgress where
  phase : GenPhase
  progressPercent : Nat
  currentStep : String
  partialQuiz : Option QuizData
  error : Option String
deriving DecidableEq, Repr

/-- Outcomes of the external calls made by one run of
QuizGenerator.generate, a thrown exception modelled as Except.error of
its message: techDetector.detectTechnologies, ProjectAnalyzer.analyze
(only its summary is used), the text chunks of the LLM stream together
with an optional fault ending the stream, and the JSON-extraction prefix
of parseResponse (fenced-block regex, JSON.parse and the questions-array
check) applied to the accumulated response text. -/
structure QuizGenEnv where
  detectResult : Except String (List String)
  analysisSummary : Except String String
  chunks : List String
  streamFault : Option String
  jsonResult : Except String (List RawQuestion)

/-- Terminal event built by the catch block of QuizGenerator.generate. -/
def errorEvent (message : String) : QuizGenerationProgress :=
  { phase := GenPhase.error
    progressPercent := 0
    currentStep := "エラーが発生しました"
    partialQuiz := none
    error := some message }

/-- Streaming loop of QuizGenerator.generate: one progress event per
text chunk, percent min 85 (40 + accumulated length / 30).  String
length counts code points where JavaScript counts UTF-16 units; the
difference only shifts the capped percentage and no claim depends on
it. -/
def streamEvents (lenSoFar : Nat) : List String → List QuizGenerationProgress
  | [] => []
  | chunk :: rest =>
    let len := lenSoFar + chunk.length
    { phase := GenPhase.generating
      progressPercent := min 85 (40 + len / 30)
      currentStep := "クイズを生成中..."
      partialQuiz := none
      error := none } :: streamEvents len rest

/-- Message thrown when the resolved technology list is empty. -/
def noTechMessage : String := "診断する技術が見つかりませんでした。技術を選択してください。"

/-- QuizGenerator.generate as a pure function from the outcomes of its
external calls to the complete list of progress events the async
generator yields.  The whole body runs inside one try/catch, so events
yielded before a fault are kept and the catch yields one terminal error
event carrying the message. -/
def QuizGenerator.generate (env : QuizGenEnv) (technologies : List String)
    (useProjectContext : Bool) : List QuizGenerationProgress :=
  let detectEvents : List QuizGenerationProgress :=
    if technologies.length = 0 then
      [{ phase := GenPhase.detecting, progressPercent := 10
         currentStep := "プロジェクトの技術スタックを検出中...", partialQuiz := none, error := none }]
    else []
  let techsResult : Except String (List String) :=
    if technologies.length = 0 then env.detectResult.map (fun l => l.take 5)
    else Except.ok technologies
  match techsResult with
  | Except.error msg => detectEvents ++ [errorEvent msg]
  | Except.ok targetTechnologies =>
    if targetTechnologies.length = 0 then detectEvents ++ [errorEvent noTechMessage]
    else
      let ev20 : QuizGenerationProgress :=
        { phase := GenPhase.detecting, progressPercent := 20
          currentStep := "対象技術: " ++ String.intercalate ", " targetTechnologies
          partialQuiz := none, error := none }
      let ctxEvents : List QuizGenerationProgress :=
        if useProjectContext then
          [{ phase := GenPhase.detecting, progressPercent := 30
             currentStep := "プロジェクトコンテキストを取得中...", partialQuiz := none, error := none }]
        else []
      let ctxResult : Except String String :=
        if useProjectContext then env.analysisSummary else Except.ok ""
      match ctxResult with
      | Except.error msg => detectEvents ++ [ev20] ++ ctxEvents ++ [errorEvent msg]
      | Except.ok _projectContext =>
        let ev40 : QuizGenerationProgress :=
          { phase := GenPhase.generating, progressPercent := 40
            currentStep := "クイズを生成中...", partialQuiz := none, error := none }
        let pre := detectEvents ++ [ev20] ++ ctxEvents ++ [ev40] ++ streamEvents 0 env.chunks
        match env.streamFault with
        | some msg => pre ++ [errorEvent msg]
        | none =>
          let ev90 : QuizGenerationProgress :=
            { phase := GenPhase.generating, progressPercent := 90
              currentStep := "レスポンスを解析中...", partialQuiz := none, error := none }
          match env.jsonResult with
          | Except.error msg => pre ++ [ev90, errorEvent msg]
          | Except.ok rawQuestions =>
            let quiz := parseResponse rawQuestions targetTechnologies
            pre ++ [ev90,
              { phase := GenPhase.completed, progressPercent := 100
                currentStep := "完了", partialQuiz := some quiz, error := none }]

example :
    countCorrect (repairChoices
      [ { id := "A", text := "", isCorrect := false }
      , { id := "B", text := "", isCorrect := false } ]) = 1 := by decide

example :
    countCorrect (repairChoices
      [ { id := "A", text := "", isCorrect := true }
      , { id := "B", text := "", isCorrect := true } ]) = 1 := by decide

example : (parseResponse [] ["React"]).questions.length = 5 := by decide

example :
    (parseResponse
      [ { technology := none, difficulty := none, questionText := none
          choices := some [], explanation := none } ] ["React"]).questions.map
      (fun q => countCorrect q.choices) = [0, 1, 1, 1, 1] := by decide

/-- Fuel irrelevance of the padding loop: one extra unit of fuel beyond
what covers the missing questions changes nothing. -/
theorem padQuestionsAux_fuel (n : Nat) :
    ∀ (qs : List QuizQuestionData) (techs : List String), 5 - qs.length ≤ n →
      padQuestionsAux (n + 1) qs techs = padQuestionsAux n qs techs := by
  induction n with
  | zero =>
    intro qs techs h
    have h5 : ¬ qs.length < 5 := by omega
    simp [padQuestionsAux, h5]
  | succ n ih =>
    intro qs techs h
    by_cases hlt : qs.length < 5
    · simp only [padQuestionsAux, hlt, if_true]
      exact ih _ _ (by simp only [List.length_append, List.length_cons, List.length_nil]; omega)
    · simp only [padQuestionsAux, hlt, if_false]

/-- Loop equation: the fuelled padding definition satisfies exactly the
recurrence of the source's while loop, so it is the while loop. -/
theorem padQuestions_loop (qs : List QuizQuestionData) (techs : List String) :
    padQuestions qs techs =
      if qs.length < 5 then
        padQuestions (qs ++ [createPlaceholderQuestion (qs.length + 1) techs]) techs
      else qs := by
  by_cases h : qs.length < 5
  · rw [if_pos h]
    have hfuel := padQuestionsAux_fuel 4
      (qs ++ [createPlaceholderQuestion (qs.length + 1) techs]) techs
      (by simp only [List.length_append, List.length_cons, List.length_nil]; omega)
    calc padQuestions qs techs
        = padQuestionsAux 4 (qs ++ [createPlaceholderQuestion (qs.length + 1) techs]) techs := by
          simp only [padQuestions, padQuestionsAux, h, if_true]
      _ = padQuestions (qs ++ [createPlaceholderQuestion (qs.length + 1) techs]) techs :=
          hfuel.symm
  · rw [if_neg h]
    simp [padQuestions, padQuestionsAux, h]

/-- Lower bound on the padded length: with fuel n the loop reaches
length at least min 5 (starting length + n). -/
theorem padQuestionsAux_length (n : Nat) :
    ∀ (qs : List QuizQuestionData) (techs : List String),
      min 5 (qs.length + n) ≤ (padQuestionsAux n qs techs).length := by
  induction n with
  | zero =>
    intro qs techs
    simp [padQuestionsAux]
  | succ n ih =>
    intro qs techs
    by_cases h : qs.length < 5
    · have := ih (qs ++ [createPlaceholderQuestion (qs.length + 1) techs]) techs
      simp only [padQuestionsAux, h, if_true]
      simp only [List.length_append, List.length_cons, List.length_nil] at this ⊢
      omega
    · simp [padQuestionsAux, h]
      omega

/-- C2: for every model response accepted by the quiz parser (any list
of raw questions), the resulting quiz contains exactly 5 questions:
synthetic placeholder questions are appended when the model produced
fewer than 5, and the question list is truncated to exactly 5 when it
produced more. -/
theorem parseResponse_question_count (rawQuestions : List RawQuestion)
    (targetTechnologies : List String) :
    (parseResponse rawQuestions targetTechnologies).questions.length = 5 := by
  have h := padQuestionsAux_length 5
    (rawQuestions.mapIdx fun idx q => parseQuestion targetTechnologies idx q) targetTechnologies
  simp only [parseResponse, padQuestions, List.length_take]
  omega

/-- Correct count of a cons cell. -/
theorem countCorrect_cons (c : QuizChoiceData) (cs : List QuizChoiceData) :
    countCorrect (c :: cs) = (if c.isCorrect then 1 else 0) + countCorrect cs := by
  by_cases h : c.isCorrect
  · simp [countCorrect, List.filter_cons, h]
    omega
  · simp [countCorrect, List.filter_cons, h]

/-- Clearing pass of the multi-correct repair leaves no correct choice. -/
theorem countCorrect_clear (rest : List QuizChoiceData) :
    countCorrect (rest.map
      (fun x => if x.isCorrect then { x with isCorrect := false } else x)) = 0 := by
  induction rest with
  | nil => rfl
  | cons c cs ih =>
    by_cases h : c.isCorrect <;> simp [countCorrect_cons, h, ih]

/-- Multi-correct repair yields exactly one correct choice whenever at
least one choice was correct. -/
theorem countCorrect_keepFirstCorrect (cs : List QuizChoiceData) (h : 1 ≤ countCorrect cs) :
    countCorrect (keepFirstCorrect cs) = 1 := by
  induction cs with
  | nil => simp [countCorrect] at h
  | cons c rest ih =>
    by_cases hc : c.isCorrect
    · simp [keepFirstCorrect, hc, countCorrect_cons, countCorrect_clear]
    · have hrest : 1 ≤ countCorrect rest := by
        simp [countCorrect_cons, hc] at h
        omega
      simp [keepFirstCorrect, hc, countCorrect_cons, ih hrest]

/-- Zero-correct repair yields exactly one correct choice on a non-empty
choice list with no correct choice. -/
theorem countCorrect_forceFirstCorrect (cs : List QuizChoiceData)
    (h : countCorrect cs = 0) (hne : cs ≠ []) :
    countCorrect (forceFirstCorrect cs) = 1 := by
  cases cs with
  | nil => simp at hne
  | cons c rest =>
    by_cases hc : c.isCorrect
    · simp [countCorrect_cons, hc] at h
    · simp [countCorrect_cons, hc] at h
      simp [forceFirstCorrect, countCorrect_cons, h]

/-- Repair invariant: on a non-empty choice list the repaired list has
exactly one correct choice, whatever the input flags were. -/
theorem countCorrect_repairChoices (cs : List QuizChoiceData) (hne : cs ≠ []) :
    countCorrect (repairChoices cs) = 1 := by
  unfold repairChoices
  by_cases h1 : countCorrect cs = 1
  · simp [h1]
  · by_cases h0 : countCorrect cs = 0
    · have hlen : cs.length > 0 := by
        cases cs
        · simp at hne
        · simp
      simp only [h0]
      rw [if_pos trivial, if_pos hlen]
      exact countCorrect_forceFirstCorrect cs h0 hne
    · rw [if_neg h1, if_neg h0]
      exact countCorrect_keepFirstCorrect cs (by omega)

/-- Each placeholder question carries exactly one correct choice. -/
theorem countCorrect_placeholder (k : Nat) (techs : List String) :
    countCorrect (createPlaceholderQuestion k techs).choices = 1 := rfl

/-- Every question of the padded list is either an original question or
a placeholder. -/
theorem mem_padQuestionsAux (n : Nat) :
    ∀ (qs : List QuizQuestionData) (techs : List String) (q : QuizQuestionData),
      q ∈ padQuestionsAux n qs techs →
      q ∈ qs ∨ ∃ k, q = createPlaceholderQuestion k techs := by
  induction n with
  | zero =>
    intro qs techs q hq
    simp [padQuestionsAux] at hq
    exact Or.inl hq
  | succ n ih =>
    intro qs techs q hq
    by_cases h : qs.length < 5
    · simp only [padQuestionsAux, h, if_true] at hq
      rcases ih _ _ _ hq with hmem | hph
      · rcases List.mem_append.mp hmem with h1 | h2
        · exact Or.inl h1
        · simp at h2
          exact Or.inr ⟨qs.length + 1, h2⟩
      · exact Or.inr hph
    · simp only [padQuestionsAux, h, if_false] at hq
      exact Or.inl hq

/-- Every element of the indexed map over raw questions is the parse of
some raw question. -/
theorem mem_mapIdx_parseQuestion (raws : List RawQuestion) (techs : List String)
    (q : QuizQuestionData) (hq : q ∈ raws.mapIdx (fun idx r => parseQuestion techs idx r)) :
    ∃ i r, q = parseQuestion techs i r := by
  rw [List.mapIdx_eq_enum_map] at hq
  rcases List.mem_map.mp hq with ⟨⟨i, r⟩, _, h⟩
  exact ⟨i, r, h.symm⟩

/-- A parsed question with a non-empty choice list has exactly one
correct choice. -/
theorem parseQuestion_one_correct (techs : List String) (i : Nat) (r : RawQuestion)
    (hne : (parseQuestion techs i r).choices ≠ []) :
    countCorrect (parseQuestion techs i r).choices = 1 := by
  have hch : (parseQuestion techs i r).choices =
      repairChoices ((r.choices.getD []).map rawToChoice) := rfl
  rw [hch] at hne ⊢
  apply countCorrect_repairChoices
  intro hcs
  apply hne
  rw [hcs]
  rfl

/-- C1 counterexample: a model question whose choices array is present
but empty is accepted by the parser yet yields a question with zero
correct choices, so the claim that after parsing every question has
exactly one correct choice fails at this input. -/
theorem parseResponse_one_correct_counterexample :
    ¬ (∀ q ∈ (parseResponse
        [{ technology := none, difficulty := none, questionText := none
           choices := some [], explanation := none }] ["React"]).questions,
        countCorrect q.choices = 1) := by decide

/-- C1 amended: after parsing, every question whose choice list is
non-empty has exactly one correct choice, independent of how malformed
the model's choices were (zero correct choices force the first choice
correct, several keep only the first); a question parsed from an empty
choices array keeps its empty choice list and hence zero correct
choices. -/
theorem parseResponse_one_correct_amended (raws : List RawQuestion) (techs : List String) :
    ∀ q ∈ (parseResponse raws techs).questions, q.choices ≠ [] →
      countCorrect q.choices = 1 := by
  intro q hq hne
  have hq' : q ∈ padQuestionsAux 5 (raws.mapIdx fun idx r => parseQuestion techs idx r) techs :=
    List.take_subset 5 _ hq
  rcases mem_padQuestionsAux 5 _ _ _ hq' with hmem | ⟨k, hk⟩
  · rcases mem_mapIdx_parseQuestion _ _ _ hmem with ⟨i, r, rfl⟩
    exact parseQuestion_one_correct techs i r hne
  · rw [hk]
    exact countCorrect_placeholder k techs

/-- Witness for the amended C1 theorem at a concrete input: the first
placeholder question of an empty model response. -/
theorem parseResponse_one_correct_amended_witness :
    countCorrect (createPlaceholderQuestion 1 ["React"]).choices = 1 :=
  parseResponse_one_correct_amended [] ["React"] (createPlaceholderQuestion 1 ["React"])
    (by decide) (by decide)

/-- C3: calculateStreak is a pure function of the date list and the
clock: when the most recent date is neither today nor yesterday the
streak is 0; and the streak laws hold: dates D-2, D-1, D with today D
give 3, the single date D-5 gives 0, the single date D gives 1. -/
theorem calculateStreak_laws (today D m : Int) (dates : List Int)
    (hm : ((sortDates dates).reverse).head? = some m)
    (h1 : m ≠ today) (h2 : m ≠ today - 1) :
    calculateStreak today dates = 0
    ∧ calculateStreak D [D - 2, D - 1, D] = 3
    ∧ calculateStreak D [D - 5] = 0
    ∧ calculateStreak D [D] = 1 := by
  refine ⟨?_, ?_, ?_, ?_⟩
  · by_cases hd : dates.length = 0
    · simp [calculateStreak, hd]
    · simp only [calculateStreak, hd, if_false, hm]
      rw [if_pos]
      constructor
      · simp [hm, h1]
      · simp [hm, h2]
  · have hs : sortDates [D - 2, D - 1, D] = [D - 2, D - 1, D] := by
      simp only [sortDates, insertDate]
      rw [if_pos (by omega : D - 1 ≤ D)]
      simp only [insertDate]
      rw [if_pos (by omega : D - 2 ≤ D - 1)]
    simp [calculateStreak, hs, streakLoop]
  · have hs : sortDates [D - 5] = [D - 5] := rfl
    simp only [calculateStreak, hs]
    rw [if_neg (by simp)]
    rw [if_pos]
    constructor
    · intro hcontra
      simp only [List.reverse_cons, List.reverse_nil, List.nil_append, List.head?_cons,
        Option.some.injEq] at hcontra
      omega
    · intro hcontra
      simp only [List.reverse_cons, List.reverse_nil, List.nil_append, List.head?_cons,
        Option.some.injEq] at hcontra
      omega
  · have hs : sortDates [D] = [D] := rfl
    simp [calculateStreak, hs, streakLoop]

/-- Witness for C3 at concrete inputs: a single five-day-old date with
today = 10 gives streak 0, and the three-day run ending at 0 gives 3. -/
theorem calculateStreak_laws_witness :
    calculateStreak 10 [5] = 0 ∧ calculateStreak 0 [0 - 2, 0 - 1, 0] = 3 := by
  have h := calculateStreak_laws 10 0 5 [5] (by decide) (by decide) (by decide)
  exact ⟨h.1, h.2.1⟩

/-- find? after updateFirst: the first match is replaced by its image
when the image still satisfies the predicate. -/
theorem find?_updateFirst {α : Type} {p : α → Bool} {f : α → α} {l : List α} {x : α}
    (hfind : l.find? p = some x) (hp : p (f x) = true) :
    (updateFirst p f l).find? p = some (f x) := by
  induction l with
  | nil => simp at hfind
  | cons a as ih =>
    by_cases ha : p a
    · rw [List.find?_cons_of_pos _ ha] at hfind
      injection hfind with hax
      subst hax
      simp only [updateFirst, ha, if_true]
      exact List.find?_cons_of_pos _ hp
    · rw [List.find?_cons_of_neg _ ha] at hfind
      simp only [updateFirst, ha, Bool.false_eq_true, if_false]
      rw [List.find?_cons_of_neg _ ha]
      exact ih hfind

/-- The learning-date step leaves the task statistics untouched. -/
theorem recordDate_taskStats (now today : Int) (s : LearningStatisticsData) :
    (recordDate now today s).taskStats = s.taskStats := by
  simp [recordDate]

/-- The learning-date step leaves the accumulated minutes untouched. -/
theorem recordDate_actual (now today : Int) (s : LearningStatisticsData) :
    (recordDate now today s).actualTimeSpentMinutes = s.actualTimeSpentMinutes := by
  simp [recordDate]

/-- A found task statistic satisfies the search predicate. -/
theorem find?_taskId {l : List TaskStatistic} {taskId : String} {ts : TaskStatistic}
    (h : l.find? (fun t => t.taskId == taskId) = some ts) :
    (ts.taskId == taskId) = true := by
  have hx := List.find?_some h
  simpa using hx

/-- C4: timing transitions of updateTaskStatistics.  Entering
in_progress from any other status stamps startedAt with the clock;
moving from in_progress to completed stamps completedAt and, when
startedAt was set, adds round((now - startedAt)/60000) minutes to both
the task's accumulated minutes and the document's total (on top of the
previous values, hence accumulating over repeated cycles); any other
from/to pair changes neither the task statistics nor the total. -/
theorem updateTaskStatistics_timing (existing : Option LearningStatisticsData) (now : Int)
    (taskId : String) (oldStatus newStatus : TaskStatusType) (curriculum : CurriculumData)
    (ts : TaskStatistic) (prepared result : LearningStatisticsData)
    (hprep : prepared = ensureTaskStat taskId (mergeStatistics existing curriculum))
    (hres : result = updateTaskStatistics existing now taskId oldStatus newStatus curriculum)
    (hts : prepared.taskStats.find? (fun t => t.taskId == taskId) = some ts) :
    (newStatus = TaskStatusType.in_progress → oldStatus ≠ TaskStatusType.in_progress →
      result.taskStats.find? (fun t => t.taskId == taskId) =
        some { ts with startedAt := some now }
      ∧ result.actualTimeSpentMinutes = prepared.actualTimeSpentMinutes)
    ∧ (oldStatus = TaskStatusType.in_progress → newStatus = TaskStatusType.completed →
      (∀ startTime, ts.startedAt = some startTime →
        result.taskStats.find? (fun t => t.taskId == taskId) =
          some { ts with completedAt := some now
                         timeSpentMinutes := ts.timeSpentMinutes + roundMinutes (now - startTime) }
        ∧ result.actualTimeSpentMinutes =
            prepared.actualTimeSpentMinutes + roundMinutes (now - startTime))
      ∧ (ts.startedAt = none →
        result.taskStats.find? (fun t => t.taskId == taskId) =
          some { ts with completedAt := some now }
        ∧ result.actualTimeSpentMinutes = prepared.actualTimeSpentMinutes))
    ∧ (¬ (newStatus = TaskStatusType.in_progress ∧ oldStatus ≠ TaskStatusType.in_progress) →
       ¬ (newStatus = TaskStatusType.completed ∧ oldStatus = TaskStatusType.in_progress) →
      result.taskStats = prepared.taskStats
      ∧ result.actualTimeSpentMinutes = prepared.actualTimeSpentMinutes) := by
  have hres' : result = recordDate now (Int.fdiv now 86400000)
      (applyTiming now taskId oldStatus newStatus prepared) := by
    rw [hres, hprep]
    rfl
  refine ⟨?_, ?_, ?_⟩
  · intro h1 h2
    subst h1
    have hcond : (TaskStatusType.in_progress == TaskStatusType.in_progress &&
        oldStatus != TaskStatusType.in_progress) = true := by
      simp [bne_iff_ne, h2]
    rw [hres', recordDate_taskStats, recordDate_actual]
    simp only [applyTiming, hcond, if_true]
    constructor
    · exact @find?_updateFirst TaskStatistic (fun t => t.taskId == taskId)
        (fun t => { t with startedAt := some now }) prepared.taskStats ts hts
        (by simpa using find?_taskId hts)
    · try rfl
      try trivial
  · intro h1 h2
    subst h1
    subst h2
    rw [hres', recordDate_taskStats, recordDate_actual]
    simp only [applyTiming]
    rw [if_neg (by simp)]
    rw [if_pos (by simp)]
    simp only [hts]
    constructor
    · intro startTime hst
      simp only [hst]
      constructor
      · have hfu := @find?_updateFirst TaskStatistic (fun t => t.taskId == taskId)
          (fun t => { t with
              completedAt := some now,
              timeSpentMinutes := t.timeSpentMinutes + roundMinutes (now - startTime) })
          prepared.taskStats ts hts (by simpa using find?_taskId hts)
        simp only [] at hfu
        rw [hst] at hfu
        exact hfu
      · try rfl
        try trivial
    · intro hst
      simp only [hst]
      constructor
      · have hfu := @find?_updateFirst TaskStatistic (fun t => t.taskId == taskId)
          (fun t => { t with completedAt := some now }) prepared.taskStats ts hts
          (by simpa using find?_taskId hts)
        simp only [] at hfu
        rw [hst] at hfu
        exact hfu
      · try rfl
        try trivial
  · intro h1 h2
    have hc1 : (newStatus == TaskStatusType.in_progress &&
        oldStatus != TaskStatusType.in_progress) = false := by
      by_cases he : newStatus = TaskStatusType.in_progress
      · by_cases ho : oldStatus = TaskStatusType.in_progress
        · simp [he, ho]
        · exact absurd ⟨he, ho⟩ h1
      · simp [he]
    have hc2 : (newStatus == TaskStatusType.completed &&
        oldStatus == TaskStatusType.in_progress) = false := by
      by_cases he : newStatus = TaskStatusType.completed
      · by_cases ho : oldStatus = TaskStatusType.in_progress
        · exact absurd ⟨he, ho⟩ h2
        · simp [ho]
      · simp [he]
    rw [hres', recordDate_taskStats, recordDate_actual]
    simp only [applyTiming, hc1, hc2, Bool.false_eq_true, if_false]
    refine ⟨?_, ?_⟩ <;> first | rfl | trivial

/-- Witness for C4 at a concrete input: a task with 5 accumulated
minutes, started at 0 ms, completed at 1020000 ms (17 minutes), on a
document with 7 accumulated minutes, ends with 7 + 17 = 24 total
minutes. -/
theorem updateTaskStatistics_timing_witness :
    (updateTaskStatistics
        (some { curriculumId := "c", totalTasks := 0, completedTasks := 0, inProgressTasks := 0
                skippedTasks := 0, notStartedTasks := 0, estimatedTotalMinutes := 0
                actualTimeSpentMinutes := 7
                taskStats := [{ taskId := "t1", startedAt := some 0, completedAt := none
                                timeSpentMinutes := 5 }]
                lastActivityTime := 0, completionPercentage := 0, streakDays := 0
                learningDates := [] })
        1020000 "t1" TaskStatusType.in_progress TaskStatusType.completed
        { id := "c", title := "", description := "", chapters := [], createdAt := 0
          updatedAt := 0, projectSummary := "" }).actualTimeSpentMinutes = 24 := by
  have h := updateTaskStatistics_timing
    (some { curriculumId := "c", totalTasks := 0, completedTasks := 0, inProgressTasks := 0
            skippedTasks := 0, notStartedTasks := 0, estimatedTotalMinutes := 0
            actualTimeSpentMinutes := 7
            taskStats := [{ taskId := "t1", startedAt := some 0, completedAt := none
                            timeSpentMinutes := 5 }]
            lastActivityTime := 0, completionPercentage := 0, streakDays := 0
            learningDates := [] })
    1020000 "t1" TaskStatusType.in_progress TaskStatusType.completed
    { id := "c", title := "", description := "", chapters := [], createdAt := 0
      updatedAt := 0, projectSummary := "" }
    { taskId := "t1", startedAt := some 0, completedAt := none, timeSpentMinutes := 5 }
    _ _ rfl rfl (by decide)
  have h2 := ((h.2.1 rfl rfl).1 0 rfl).2
  rw [h2]
  decide

/-- When no chapter contains the task the chapter loop finds nothing. -/
theorem updateTaskInChapters_none (taskId : String) (status : TaskStatusType)
    (chs : List ChapterData)
    (h : ∀ ch ∈ chs, ∀ t ∈ ch.tasks, t.id ≠ taskId) :
    updateTaskInChapters taskId status chs = none := by
  induction chs with
  | nil => rfl
  | cons ch rest ih =>
    have hany : ch.tasks.any (fun t => t.id == taskId) = false := by
      rw [List.any_eq_false]
      intro t ht
      simp [h ch (List.mem_cons_self _ _) t ht]
    simp only [updateTaskInChapters, hany, Bool.false_eq_true, if_false]
    rw [ih (fun c hc t ht => h c (List.mem_cons_of_mem _ hc) t ht)]
    rfl

/-- C5: updateTaskStatus returns null, not an error, and performs no
save (the stored document is untouched) when no curriculum document
exists or the task id appears in no chapter of the stored document. -/
theorem updateTaskStatus_not_found (stored : Option CurriculumData) (now : Int)
    (taskId : String) (status : TaskStatusType)
    (h : ∀ curriculum, stored = some curriculum →
      ∀ ch ∈ curriculum.chapters, ∀ t ∈ ch.tasks, t.id ≠ taskId) :
    CurriculumManager.updateTaskStatus stored now taskId status = (none, stored) := by
  cases stored with
  | none => rfl
  | some curriculum =>
    simp only [CurriculumManager.updateTaskStatus]
    rw [updateTaskInChapters_none taskId status curriculum.chapters (h curriculum rfl)]

/-- Witness for C5 at a concrete input: mutating a missing task id on a
stored one-chapter document returns null and keeps the document. -/
theorem updateTaskStatus_not_found_witness :
    CurriculumManager.updateTaskStatus
      (some { id := "c", title := "", description := ""
              chapters := [{ id := "ch1", title := "", description := ""
                             tasks := [{ id := "t1", title := "", description := ""
                                         status := TaskStatusType.not_started
                                         targetFiles := [], estimatedTime := "30分"
                                         prerequisites := [] }]
                             order := 0 }]
              createdAt := 0, updatedAt := 0, projectSummary := "" })
      5 "missing" TaskStatusType.completed
    = (none, some { id := "c", title := "", description := ""
                    chapters := [{ id := "ch1", title := "", description := ""
                                   tasks := [{ id := "t1", title := "", description := ""
                                               status := TaskStatusType.not_started
                                               targetFiles := [], estimatedTime := "30分"
                                               prerequisites := [] }]
                                   order := 0 }]
                    createdAt := 0, updatedAt := 0, projectSummary := "" }) := by
  apply updateTaskStatus_not_found
  intro c hc
  cases hc
  decide

/-- updateFirst is the identity when the update fixes every matching
element. -/
theorem updateFirst_id {α : Type} (p : α → Bool) (f : α → α) (l : List α)
    (h : ∀ x ∈ l, p x = true → f x = x) :
    updateFirst p f l = l := by
  induction l with
  | nil => rfl
  | cons a as ih =>
    by_cases ha : p a
    · simp only [updateFirst, ha, if_true]
      rw [h a (List.mem_cons_self _ _) ha]
    · simp only [updateFirst, ha, Bool.false_eq_true, if_false]
      rw [ih (fun x hx hpx => h x (List.mem_cons_of_mem _ hx) hpx)]

/-- The chapter loop returns the chapters unchanged when the task is
present and already carries the requested status. -/
theorem updateTaskInChapters_id (taskId : String) (status : TaskStatusType)
    (chs : List ChapterData)
    (hstat : ∀ ch ∈ chs, ∀ t ∈ ch.tasks, t.id = taskId → t.status = status)
    (hfound : ∃ ch ∈ chs, ∃ t ∈ ch.tasks, t.id = taskId) :
    updateTaskInChapters taskId status chs = some chs := by
  induction chs with
  | nil =>
    rcases hfound with ⟨ch, hch, _⟩
    simp at hch
  | cons ch rest ih =>
    by_cases hany : ch.tasks.any (fun t => t.id == taskId)
    · simp only [updateTaskInChapters, hany, if_true]
      have hfix : updateFirst (fun t => t.id == taskId)
          (fun t => { t with status := status }) ch.tasks = ch.tasks := by
        apply updateFirst_id
        intro t ht hpt
        have hid : t.id = taskId := by simpa using hpt
        have hst := hstat ch (List.mem_cons_self _ _) t ht hid
        show { t with status := status } = t
        rw [← hst]
      rw [hfix]
    · have hfound' : ∃ c ∈ rest, ∃ t ∈ c.tasks, t.id = taskId := by
        rcases hfound with ⟨c, hc, t, ht, hid⟩
        rcases List.mem_cons.mp hc with rfl | hc'
        · exact absurd (List.any_eq_true.mpr ⟨t, ht, by simp [hid]⟩) hany
        · exact ⟨c, hc', t, ht, hid⟩
      have hstat' : ∀ c ∈ rest, ∀ t ∈ c.tasks, t.id = taskId → t.status = status :=
        fun c hc t ht hid => hstat c (List.mem_cons_of_mem _ hc) t ht hid
      simp only [updateTaskInChapters, hany, Bool.false_eq_true, if_false]
      rw [ih hstat' hfound']
      rfl

/-- With equal old and new status the timing step changes nothing. -/
theorem applyTiming_same (now : Int) (taskId : String) (status : TaskStatusType)
    (s : LearningStatisticsData) :
    applyTiming now taskId status status s = s := by
  have hc1 : (status == TaskStatusType.in_progress &&
      status != TaskStatusType.in_progress) = false := by
    by_cases h : status = TaskStatusType.in_progress <;> simp [h]
  have hc2 : (status == TaskStatusType.completed &&
      status == TaskStatusType.in_progress) = false := by
    cases status <;> rfl
  simp only [applyTiming, hc1, hc2, Bool.false_eq_true, if_false]

/-- The find-or-create step never changes the accumulated minutes. -/
theorem ensureTaskStat_actual (taskId : String) (s : LearningStatisticsData) :
    (ensureTaskStat taskId s).actualTimeSpentMinutes = s.actualTimeSpentMinutes := by
  by_cases h : s.taskStats.any (fun ts => ts.taskId == taskId) <;>
    simp [ensureTaskStat, h]

/-- Every task statistic after the find-or-create step is a previous one
or the fresh zero entry. -/
theorem ensureTaskStat_mem (taskId : String) (s : LearningStatisticsData) :
    ∀ t ∈ (ensureTaskStat taskId s).taskStats,
      t ∈ s.taskStats ∨
        t = { taskId := taskId, startedAt := none, completedAt := none
              timeSpentMinutes := 0 } := by
  intro t ht
  by_cases h : s.taskStats.any (fun ts => ts.taskId == taskId)
  · simp only [ensureTaskStat, h, if_true] at ht
    exact Or.inl ht
  · simp only [ensureTaskStat, h, Bool.false_eq_true, if_false] at ht
    rcases List.mem_append.mp ht with h1 | h2
    · exact Or.inl h1
    · simp at h2
      exact Or.inr h2

/-- C6: updating a task to its current status is idempotent apart from
the refresh: the stored document becomes exactly the old document with
updatedAt refreshed, and the statistics update with an unchanged status
leaves the accumulated time fields untouched (the total equals the
merged previous total, which is the stored total when statistics exist,
and every task statistic is a previous one or a fresh zero entry). -/
theorem updateTaskStatus_idempotent (doc : CurriculumData) (now now2 : Int)
    (taskId : String) (status : TaskStatusType)
    (existing : Option LearningStatisticsData) (curriculum : CurriculumData)
    (hstat : ∀ ch ∈ doc.chapters, ∀ t ∈ ch.tasks, t.id = taskId → t.status = status)
    (hfound : ∃ ch ∈ doc.chapters, ∃ t ∈ ch.tasks, t.id = taskId) :
    CurriculumManager.updateTaskStatus (some doc) now taskId status =
      (some { doc with updatedAt := now }, some { doc with updatedAt := now })
    ∧ (updateTaskStatistics existing now2 taskId status status curriculum).actualTimeSpentMinutes
        = (mergeStatistics existing curriculum).actualTimeSpentMinutes
    ∧ (∀ s0, existing = some s0 →
        (mergeStatistics existing curriculum).actualTimeSpentMinutes =
          s0.actualTimeSpentMinutes)
    ∧ ∀ t ∈ (updateTaskStatistics existing now2 taskId status status curriculum).taskStats,
        t ∈ (mergeStatistics existing curriculum).taskStats
        ∨ t = { taskId := taskId, startedAt := none, completedAt := none
                timeSpentMinutes := 0 } := by
  have heq : updateTaskStatistics existing now2 taskId status status curriculum =
      recordDate now2 (Int.fdiv now2 86400000)
        (applyTiming now2 taskId status status
          (ensureTaskStat taskId (mergeStatistics existing curriculum))) := rfl
  refine ⟨?_, ?_, ?_, ?_⟩
  · simp only [CurriculumManager.updateTaskStatus]
    rw [updateTaskInChapters_id taskId status doc.chapters hstat hfound]
  · rw [heq, recordDate_actual, applyTiming_same, ensureTaskStat_actual]
  · intro s0 hs0
    subst hs0
    rfl
  · intro t ht
    rw [heq, recordDate_taskStats, applyTiming_same] at ht
    exact ensureTaskStat_mem taskId (mergeStatistics existing curriculum) t ht

/-- Witness for C6 at a concrete input: re-submitting in_progress for a
task already in progress only refreshes updatedAt. -/
theorem updateTaskStatus_idempotent_witness :
    CurriculumManager.updateTaskStatus
      (some { id := "c", title := "", description := ""
              chapters := [{ id := "ch1", title := "", description := ""
                             tasks := [{ id := "t1", title := "", description := ""
                                         status := TaskStatusType.in_progress
                                         targetFiles := [], estimatedTime := "30分"
                                         prerequisites := [] }]
                             order := 0 }]
              createdAt := 0, updatedAt := 0, projectSummary := "" })
      99 "t1" TaskStatusType.in_progress
    = (some { id := "c", title := "", description := ""
              chapters := [{ id := "ch1", title := "", description := ""
                             tasks := [{ id := "t1", title := "", description := ""
                                         status := TaskStatusType.in_progress
                                         targetFiles := [], estimatedTime := "30分"
                                         prerequisites := [] }]
                             order := 0 }]
              createdAt := 0, updatedAt := 99, projectSummary := "" },
       some { id := "c", title := "", description := ""
              chapters := [{ id := "ch1", title := "", description := ""
                             tasks := [{ id := "t1", title := "", description := ""
                                         status := TaskStatusType.in_progress
                                         targetFiles := [], estimatedTime := "30分"
                                         prerequisites := [] }]
                             order := 0 }]
              createdAt := 0, updatedAt := 99, projectSummary := "" }) := by
  exact (updateTaskStatus_idempotent _ 99 0 "t1" TaskStatusType.in_progress none
    { id := "c", title := "", description := "", chapters := [], createdAt := 0
      updatedAt := 0, projectSummary := "" }
    (by decide) (by decide)).1

/-- C7: the client-facing projection masks answer correctness: every
choice of every question of the proto projection produced by toProto
(through questionToProto and choiceToProto with its default hideCorrect)
has isCorrect false, whatever the stored flags are. -/
theorem toProto_masks_isCorrect (data : QuizData) :
    (QuizManager.toProto data).questions.all
      (fun q => q.choices.all (fun c => !c.isCorrect)) = true := by
  rw [List.all_eq_true]
  intro q hq
  simp only [QuizManager.toProto] at hq
  rcases List.mem_map.mp hq with ⟨q0, _, rfl⟩
  rw [List.all_eq_true]
  intro c hc
  simp only [QuizManager.questionToProto] at hc
  rcases List.mem_map.mp hc with ⟨c0, _, rfl⟩
  rfl

/-- C10: checkAnswer throws an error rather than returning a null or
no-op result when no quiz is stored, when the stored quiz id differs
from the requested one, or when the question id matches no question;
only on a matching quiz and question does it return the verdict, the
correct choice id and the explanation. -/
theorem checkAnswer_spec (stored : Option QuizData)
    (quizId questionId selectedChoiceId : String) :
    (stored = none →
      QuizManager.checkAnswer stored quizId questionId selectedChoiceId =
        Except.error "Quiz not found")
    ∧ (∀ quiz, stored = some quiz → quiz.id ≠ quizId →
      QuizManager.checkAnswer stored quizId questionId selectedChoiceId =
        Except.error "Quiz not found")
    ∧ (∀ quiz, stored = some quiz → quiz.id = quizId →
      quiz.questions.find? (fun q => q.id == questionId) = none →
      QuizManager.checkAnswer stored quizId questionId selectedChoiceId =
        Except.error "Question not found")
    ∧ (∀ quiz question, stored = some quiz → quiz.id = quizId →
      quiz.questions.find? (fun q => q.id == questionId) = some question →
      QuizManager.checkAnswer stored quizId questionId selectedChoiceId =
        Except.ok
          { isCorrect := ((question.choices.find? (fun c => c.isCorrect)).map
              (fun c => c.id)) == some selectedChoiceId
            correctChoiceId := ((question.choices.find? (fun c => c.isCorrect)).map
              (fun c => c.id)).getD ""
            explanation := question.explanation }) := by
  refine ⟨?_, ?_, ?_, ?_⟩
  · intro h
    subst h
    rfl
  · intro quiz h hneq
    subst h
    simp only [QuizManager.checkAnswer]
    rw [if_pos hneq]
  · intro quiz h hid hfind
    subst h
    simp only [QuizManager.checkAnswer]
    rw [if_neg (by simp [hid])]
    rw [hfind]
  · intro quiz question h hid hfind
    subst h
    simp only [QuizManager.checkAnswer]
    rw [if_neg (by simp [hid])]
    rw [hfind]

/-- Witness for C10 at a concrete input: with no stored quiz the check
throws the quiz-not-found error. -/
theorem checkAnswer_spec_witness :
    QuizManager.checkAnswer none "qz" "q1" "A" = Except.error "Quiz not found" :=
  (checkAnswer_spec none "qz" "q1" "A").1 rfl

/-- Every run of the generator ends with exactly one terminal event:
either completed with no error or error with a message. -/
theorem generate_shape (env : QuizGenEnv) (technologies : List String) (u : Bool) :
    ∃ pre last, QuizGenerator.generate env technologies u = pre ++ [last]
      ∧ ((last.phase = GenPhase.completed ∧ last.error = none)
         ∨ (last.phase = GenPhase.error ∧ last.error.isSome)) := by
  have happ : ∀ (l : List QuizGenerationProgress) (a b : QuizGenerationProgress),
      l ++ [a, b] = (l ++ [a]) ++ [b] := by
    intro l a b
    simp
  have hterm : ∀ (pre : List QuizGenerationProgress) (msg : String),
      ∃ p l, pre ++ [errorEvent msg] = p ++ [l]
        ∧ ((l.phase = GenPhase.completed ∧ l.error = none)
           ∨ (l.phase = GenPhase.error ∧ l.error.isSome)) :=
    fun pre msg => ⟨pre, errorEvent msg, rfl, Or.inr ⟨rfl, rfl⟩⟩
  unfold QuizGenerator.generate
  by_cases h0 : technologies.length = 0
  · simp only [h0, if_true]
    cases hdet : env.detectResult with
    | error msg =>
      simp only [hdet, Except.map]
      exact hterm _ msg
    | ok l =>
      simp only [hdet, Except.map]
      by_cases hl : (l.take 5).length = 0
      · simp only [hl, if_true]
        exact hterm _ _
      · simp only [hl, if_false]
        cases hctx : (if u = true then env.analysisSummary else Except.ok "") with
        | error msg =>
          simp only [hctx]
          exact hterm _ msg
        | ok s =>
          simp only [hctx]
          cases hsf : env.streamFault with
          | some msg =>
            simp only [hsf]
            exact hterm _ msg
          | none =>
            simp only [hsf]
            cases hjs : env.jsonResult with
            | error msg =>
              simp only [hjs]
              rw [happ]
              exact hterm _ msg
            | ok raws =>
              simp only [hjs]
              rw [happ]
              refine ⟨_, _, rfl, ?_⟩
              exact Or.inl ⟨rfl, rfl⟩
  · simp only [h0, if_false]
    cases hctx : (if u = true then env.analysisSummary else Except.ok "") with
    | error msg =>
      simp only [hctx]
      exact hterm _ msg
    | ok s =>
      simp only [hctx]
      cases hsf : env.streamFault with
      | some msg =>
        simp only [hsf]
        exact hterm _ msg
      | none =>
        simp only [hsf]
        cases hjs : env.jsonResult with
        | error msg =>
          simp only [hjs]
          rw [happ]
          exact hterm _ msg
        | ok raws =>
          simp only [hjs]
          rw [happ]
          refine ⟨_, _, rfl, ?_⟩
          exact Or.inl ⟨rfl, rfl⟩

/-- C9: the generator never throws past its boundary: every run is a
non-empty event list whose last event is terminal (completed with no
error, or error carrying a message), and when the technology list
resolved after auto-detection is empty the run is exactly the detection
event followed by the terminal error event, with no generation-phase
event and no generation attempt. -/
theorem generate_terminal_events (env : QuizGenEnv) (technologies : List String)
    (useProjectContext : Bool) :
    (QuizGenerator.generate env technologies useProjectContext ≠ []
    ∧ ∀ last,
        (QuizGenerator.generate env technologies useProjectContext).getLast? = some last →
        (last.phase = GenPhase.completed ∧ last.error = none)
        ∨ (last.phase = GenPhase.error ∧ last.error.isSome))
    ∧ (env.detectResult = Except.ok [] →
      QuizGenerator.generate env [] useProjectContext =
        [{ phase := GenPhase.detecting, progressPercent := 10
           currentStep := "プロジェクトの技術スタックを検出中...", partialQuiz := none
           error := none },
         errorEvent noTechMessage]) := by
  obtain ⟨pre, last, heq, hprop⟩ := generate_shape env technologies useProjectContext
  refine ⟨⟨?_, ?_⟩, ?_⟩
  · rw [heq]
    simp
  · intro l hl
    rw [heq, List.getLast?_concat] at hl
    injection hl with h
    subst h
    exact hprop
  · intro hdet
    simp [QuizGenerator.generate, hdet, Except.map]

/-- Witness for C9 at a concrete input: auto-detection resolving no
technologies ends the run with the terminal no-technology error. -/
theorem generate_terminal_events_witness :
    QuizGenerator.generate
      { detectResult := Except.ok [], analysisSummary := Except.ok "", chunks := []
        streamFault := none, jsonResult := Except.error "x" } [] false =
      [{ phase := GenPhase.detecting, progressPercent := 10
         currentStep := "プロジェクトの技術スタックを検出中...", partialQuiz := none
         error := none },
       errorEvent noTechMessage] :=
  (generate_terminal_events
    { detectResult := Except.ok [], analysisSummary := Except.ok "", chunks := []
      streamFault := none, jsonResult := Except.error "x" } [] false).2 rfl

/-- Depth bound of the walk: a node built at a given depth has height at
most MAX_DEPTH - depth + 1, because the walk refuses to recurse once the
depth cap is reached. -/
theorem analyzeStructure_height :
    ∀ (name : String) (children : List FsEntry) (depth totalFiles : Nat),
      DirectoryNode.height (analyzeStructure name children depth totalFiles).1 ≤
        (MAX_DEPTH - depth) + 1 := by
  have H := analyzeStructure.induct
    (fun name children depth totalFiles =>
      DirectoryNode.height (analyzeStructure name children depth totalFiles).1 ≤
        (MAX_DEPTH - depth) + 1)
    (fun entries depth fileCount totalFiles =>
      DirectoryNode.heightList (walkEntries entries depth fileCount totalFiles).1 ≤
        (MAX_DEPTH - (depth + 1)) + 1)
  apply H
  · intro name children depth t hguard
    rw [analyzeStructure, if_pos hguard]
    simp only [DirectoryNode.height, DirectoryNode.heightList]
    omega
  · intro name children depth t hguard ih
    rw [analyzeStructure, if_neg hguard]
    push_neg at hguard
    simp only [DirectoryNode.height]
    omega
  · intro depth fc t
    rw [walkEntries.eq_def]
    simp [DirectoryNode.heightList]
  · intro depth fc t e es hskip ih
    rw [walkEntries.eq_def]
    dsimp only
    rw [if_pos hskip]
    exact ih
  · intro depth fc t e es hskip hcaps
    rw [walkEntries.eq_def]
    dsimp only
    rw [if_neg hskip, if_pos hcaps]
    simp [DirectoryNode.heightList]
  · intro depth fc t es hcaps n ch
    dsimp only
    intro hskip ih1 ih2
    rw [walkEntries.eq_def]
    dsimp only
    rw [if_neg hskip, if_neg hcaps]
    simp only [DirectoryNode.heightList]
    omega
  · intro depth fc t es hcaps n hskip ih
    rw [walkEntries.eq_def]
    dsimp only
    rw [if_neg hskip, if_neg hcaps]
    simp only [DirectoryNode.heightList, DirectoryNode.height]
    omega

/-- Counter coherence and global cap of the walk: the returned counter
is the starting counter plus the number of file nodes in the returned
tree, and a counter within the cap stays within the cap. -/
theorem analyzeStructure_total :
    ∀ (name : String) (children : List FsEntry) (depth totalFiles : Nat),
      (analyzeStructure name children depth totalFiles).2 =
        totalFiles +
          DirectoryNode.fileTotal (analyzeStructure name children depth totalFiles).1
      ∧ (totalFiles ≤ MAX_TOTAL_FILES →
          (analyzeStructure name children depth totalFiles).2 ≤ MAX_TOTAL_FILES) := by
  have H := analyzeStructure.induct
    (fun name children depth totalFiles =>
      (analyzeStructure name children depth totalFiles).2 =
        totalFiles +
          DirectoryNode.fileTotal (analyzeStructure name children depth totalFiles).1
      ∧ (totalFiles ≤ MAX_TOTAL_FILES →
          (analyzeStructure name children depth totalFiles).2 ≤ MAX_TOTAL_FILES))
    (fun entries depth fileCount totalFiles =>
      (walkEntries entries depth fileCount totalFiles).2 =
        totalFiles +
          DirectoryNode.fileTotalList (walkEntries entries depth fileCount totalFiles).1
      ∧ (totalFiles ≤ MAX_TOTAL_FILES →
          (walkEntries entries depth fileCount totalFiles).2 ≤ MAX_TOTAL_FILES))
  apply H
  · intro name children depth t hguard
    rw [analyzeStructure, if_pos hguard]
    simp [DirectoryNode.fileTotal, DirectoryNode.fileTotalList]
  · intro name children depth t hguard ih
    rw [analyzeStructure, if_neg hguard]
    simp only [DirectoryNode.fileTotal]
    exact ih
  · intro depth fc t
    rw [walkEntries.eq_def]
    simp [DirectoryNode.fileTotalList]
  · intro depth fc t e es hskip ih
    rw [walkEntries.eq_def]
    dsimp only
    rw [if_pos hskip]
    exact ih
  · intro depth fc t e es hskip hcaps
    rw [walkEntries.eq_def]
    dsimp only
    rw [if_neg hskip, if_pos hcaps]
    simp [DirectoryNode.fileTotalList]
  · intro depth fc t es hcaps n ch
    dsimp only
    intro hskip ih1 ih2
    rw [walkEntries.eq_def]
    dsimp only
    rw [if_neg hskip, if_neg hcaps]
    obtain ⟨ih1a, ih1b⟩ := ih1
    obtain ⟨ih2a, ih2b⟩ := ih2
    simp only [DirectoryNode.fileTotalList]
    constructor
    · omega
    · intro ht
      exact ih2b (ih1b ht)
  · intro depth fc t es hcaps n hskip ih
    rw [walkEntries.eq_def]
    dsimp only
    rw [if_neg hskip, if_neg hcaps]
    push_neg at hcaps
    obtain ⟨iha, ihb⟩ := ih
    simp only [DirectoryNode.fileTotalList, DirectoryNode.fileTotal]
    constructor
    · omega
    · intro ht
      apply ihb
      omega

/-- No file child below a directory node in a filtered children list. -/
theorem directFileChildren_cons_dir (a : String) (b : List DirectoryNode)
    (l : List DirectoryNode) :
    directFileChildren (DirectoryNode.dir a b :: l) = directFileChildren l := by
  simp [directFileChildren, List.filter_cons]

/-- A file node adds one file child. -/
theorem directFileChildren_cons_file (a : String) (l : List DirectoryNode) :
    directFileChildren (DirectoryNode.file a :: l) = directFileChildren l + 1 := by
  simp [directFileChildren, List.filter_cons]

/-- The walk always builds a directory node for the visited directory. -/
theorem analyzeStructure_fst_dir (name : String) (children : List FsEntry)
    (depth t : Nat) :
    ∃ ns, (analyzeStructure name children depth t).1 = DirectoryNode.dir name ns := by
  rw [analyzeStructure]
  by_cases h : depth ≥ MAX_DEPTH ∨ t ≥ MAX_TOTAL_FILES
  · rw [if_pos h]
    exact ⟨[], rfl⟩
  · rw [if_neg h]
    exact ⟨_, rfl⟩

/-- Per-directory cap of the walk: every directory node of the result
tree lists at most MAX_FILES_PER_DIR file children. -/
theorem analyzeStructure_perDir :
    ∀ (name : String) (children : List FsEntry) (depth totalFiles : Nat),
      DirectoryNode.allDirs (fun ns => decide (directFileChildren ns ≤ MAX_FILES_PER_DIR))
        (analyzeStructure name children depth totalFiles).1 = true := by
  have H := analyzeStructure.induct
    (fun name children depth totalFiles =>
      DirectoryNode.allDirs (fun ns => decide (directFileChildren ns ≤ MAX_FILES_PER_DIR))
        (analyzeStructure name children depth totalFiles).1 = true)
    (fun entries depth fileCount totalFiles =>
      (fileCount ≤ MAX_FILES_PER_DIR →
        fileCount + directFileChildren (walkEntries entries depth fileCount totalFiles).1 ≤
          MAX_FILES_PER_DIR)
      ∧ DirectoryNode.allDirsList
          (fun ns => decide (directFileChildren ns ≤ MAX_FILES_PER_DIR))
          (walkEntries entries depth fileCount totalFiles).1 = true)
  apply H
  · intro name children depth t hguard
    rw [analyzeStructure, if_pos hguard]
    simp [DirectoryNode.allDirs, DirectoryNode.allDirsList, directFileChildren]
  · intro name children depth t hguard ih
    rw [analyzeStructure, if_neg hguard]
    obtain ⟨ih1, ih2⟩ := ih
    simp only [DirectoryNode.allDirs, Bool.and_eq_true, decide_eq_true_eq]
    constructor
    · have := ih1 (Nat.zero_le _)
      omega
    · exact ih2
  · intro depth fc t
    rw [walkEntries.eq_def]
    simp [DirectoryNode.allDirsList, directFileChildren]
  · intro depth fc t e es hskip ih
    rw [walkEntries.eq_def]
    dsimp only
    rw [if_pos hskip]
    exact ih
  · intro depth fc t e es hskip hcaps
    rw [walkEntries.eq_def]
    dsimp only
    rw [if_neg hskip, if_pos hcaps]
    simp [DirectoryNode.allDirsList, directFileChildren]
  · intro depth fc t es hcaps n ch
    dsimp only
    intro hskip ih1 ih2
    rw [walkEntries.eq_def]
    dsimp only
    rw [if_neg hskip, if_neg hcaps]
    obtain ⟨ih2a, ih2b⟩ := ih2
    obtain ⟨ns, hdir⟩ := analyzeStructure_fst_dir n ch (depth + 1) t
    constructor
    · intro hfc
      rw [hdir, directFileChildren_cons_dir]
      exact ih2a hfc
    · simp only [DirectoryNode.allDirsList, Bool.and_eq_true]
      exact ⟨ih1, ih2b⟩
  · intro depth fc t es hcaps n hskip ih
    rw [walkEntries.eq_def]
    dsimp only
    rw [if_neg hskip, if_neg hcaps]
    push_neg at hcaps
    obtain ⟨iha, ihb⟩ := ih
    constructor
    · intro hfc
      rw [directFileChildren_cons_file]
      have := iha (by omega)
      omega
    · simp only [DirectoryNode.allDirsList, DirectoryNode.allDirs, Bool.and_eq_true]
      exact ⟨trivial, ihb⟩

/-- C8: bounds of the structure walk from the root call (depth 0, file
counter 0): the result tree never exceeds the depth cap (height at most
MAX_DEPTH + 1, so no recursion past depth 4), the final counter and the
number of file nodes in the tree never exceed MAX_TOTAL_FILES, and every
directory of the result lists at most MAX_FILES_PER_DIR file children;
caps truncate silently, the walk always returning a tree. -/
theorem analyzeStructure_bounds (name : String) (children : List FsEntry) :
    DirectoryNode.height (analyzeStructure name children 0 0).1 ≤ MAX_DEPTH + 1
    ∧ (analyzeStructure name children 0 0).2 ≤ MAX_TOTAL_FILES
    ∧ DirectoryNode.fileTotal (analyzeStructure name children 0 0).1 ≤ MAX_TOTAL_FILES
    ∧ DirectoryNode.allDirs (fun ns => decide (directFileChildren ns ≤ MAX_FILES_PER_DIR))
        (analyzeStructure name children 0 0).1 = true := by
  obtain ⟨ht1, ht2⟩ := analyzeStructure_total name children 0 0
  have hh := analyzeStructure_height name children 0 0
  refine ⟨?_, ?_, ?_, analyzeStructure_perDir name children 0 0⟩
  · simpa using hh
  · exact ht2 (Nat.zero_le _)
  · have := ht2 (Nat.zero_le _)
    omega
